import Mathlib

/-!
Verification of the otplike-logfmt log formatter (src/main.rs).

The program reads lines from stdin.  When stdout is a terminal it parses each
line as JSON, renders JSON objects as coloured human-readable log lines
(process_line), reports parse failures inline and silently drops non-object
JSON values; otherwise it echoes every line verbatim.

External library collaborators are modelled as parameters or small concrete
stand-ins:
  - serde_json::from_str   -> a parameter jparse : String -> Except String JValue
    (the error carries the Display-rendered parse error message);
  - chrono parse::<DateTime<Local>> followed by format "%Y-%m-%d %H:%M:%S"
    -> a parameter parseTs : String -> Option String (none = parse failure);
  - colored_json::to_colored_json_auto -> a parameter ser : JValue -> Option String
    (none = serialization failure, which the source unwraps);
  - ansi_term Colour::paint -> a concrete ANSI escape wrapper.

Output is modelled as the flat stream of bytes produced by println calls; a
panic (an unwrap failure) is modelled as Except.error carrying the output
already printed before the panic.
-/

/-- JSON values as in the serde_json library (external collaborator).  Numbers
are modelled as integers, which covers every behaviour the program observes. -/
inductive JValue where
  | null : JValue
  | bool : Bool → JValue
  | num : Int → JValue
  | str : String → JValue
  | arr : List JValue → JValue
  | obj : List (String × JValue) → JValue

/-- serde_json Value::as_str: some for strings, none for every other value. -/
def JValue.as_str : JValue → Option String
  | .str s => some s
  | _ => none

/-- ansi_term colours used by main.rs (external collaborator). -/
inductive Colour where
  | Red | Yellow | Blue | Purple | Green | White
deriving DecidableEq

/-- ANSI foreground colour codes, as emitted by ansi_term. -/
def Colour.code : Colour → String
  | .Red => "31"
  | .Yellow => "33"
  | .Blue => "34"
  | .Purple => "35"
  | .Green => "32"
  | .White => "37"

/-- Models ansi_term Colour::paint (external collaborator): wraps the text in
the colour's ANSI escape sequence. -/
def Colour.paint (c : Colour) (s : String) : String :=
  "\x1b[" ++ c.code ++ "m" ++ s ++ "\x1b[0m"

/-- Models ansi_term Colour::bold().paint, used for the note arrow marker. -/
def Colour.paintBold (c : Colour) (s : String) : String :=
  "\x1b[1;" ++ c.code ++ "m" ++ s ++ "\x1b[0m"

/-- Rust width format specifier with centre alignment, as in format "[\x7b:^7\x7d]":
pad with spaces to width w, the extra space going to the right; never truncates. -/
def padCenter (w : Nat) (s : String) : String :=
  if w ≤ s.length then s
  else
    String.mk (List.replicate ((w - s.length) / 2) ' ') ++ s ++
      String.mk (List.replicate (w - s.length - (w - s.length) / 2) ' ')

/-- Rust width format specifier with left alignment, as in format "\x7b:<10\x7d":
pad with spaces on the right to width w; never truncates. -/
def padLeft (w : Nat) (s : String) : String :=
  if w ≤ s.length then s else s ++ String.mk (List.replicate (w - s.length) ' ')

/-- main.rs 27-42, LevelFormatter: substitute the placeholder when absent,
centre to width 7 in brackets, colour by the severity value. -/
def LevelFormatter.format (lvl : Option String) : String :=
  let level := lvl.getD "XXXXXX"
  let highlight :=
    if level = "alert" ∨ level = "critical" ∨ level = "error" then Colour.Red
    else if level = "warning" ∨ level = "notice" then Colour.Yellow
    else if level = "info" then Colour.Blue
    else if level = "debug" then Colour.Purple
    else Colour.Blue
  highlight.paint ("[" ++ padCenter 7 level ++ "]")

/-- main.rs 44-57, WhenFormatter.  parseTs models the chrono timestamp
parse-and-reformat to local time (external collaborator); the source unwraps
its result, so a parse failure on a present value is a panic, modelled by
none. -/
def WhenFormatter.format (parseTs : String → Option String) (when : Option String) :
    Option String :=
  match when with
  | some w =>
    match parseTs w with
    | some t => some (Colour.Blue.paint t)
    | none => none
  | none => some (Colour.Blue.paint "XXXX-XX-XX XX:XX:XX")

/-- main.rs 59-65, PidFormatter: placeholder when absent, left-justified to
width 10, blue. -/
def PidFormatter.format (pid : Option String) : String :=
  Colour.Blue.paint (padLeft 10 (pid.getD "XXXXXX"))

/-- main.rs 67-74, WhatFormatter: empty string when absent, white. -/
def WhatFormatter.format (what : Option String) : String :=
  Colour.White.paint (what.getD "")

/-- main.rs 76-83, InFormatter: empty string when absent, white, with a
"| " marker before the value. -/
def InFormatter.format (i : Option String) : String :=
  Colour.White.paint ("| " ++ i.getD "")

/-- main.rs 85-94, TextFormatter: unwraps its argument, so it panics (none)
when invoked with no value; otherwise a bold blue arrow and the green body. -/
def TextFormatter.format (text : Option String) : Option String :=
  match text with
  | some t => some (Colour.Blue.paintBold ">>" ++ " " ++ Colour.Green.paint t)
  | none => none

/-- serde_json Map::get on the decoded object. -/
def mapGet (line : List (String × JValue)) (k : String) : Option JValue :=
  (line.find? (fun kv => kv.1 == k)).map (fun kv => kv.2)

/-- serde_json Map::remove of one key (the return value is discarded by the
source). -/
def removeKey (line : List (String × JValue)) (k : String) : List (String × JValue) :=
  line.filter (fun kv => kv.1 != k)

/-- main.rs 131-135: the for loop removing one key after the other. -/
def removeAll (line : List (String × JValue)) (ks : List String) :
    List (String × JValue) :=
  ks.foldl removeKey line

/-- the field extraction pattern of process_line:
line.get(k).and_then(Value::as_str). -/
def extractStr (line : List (String × JValue)) (k : String) : Option String :=
  (mapGet line k).bind JValue.as_str

/-- main.rs 131-133: the keys removed before residual rendering. -/
def recognizedKeys : List String :=
  ["when", "level", "pid", "what", "in", "at", "log", "id", "text"]

/-- main.rs 98-123: the five formatted segments of the primary line, joined by
single spaces in the order when, level, pid, in, what; none when the when
formatter panics. -/
def primarySegments (parseTs : String → Option String)
    (line : List (String × JValue)) : Option String :=
  (WhenFormatter.format parseTs (extractStr line "when")).map (fun whenStr =>
    whenStr ++ " " ++ LevelFormatter.format (extractStr line "level") ++ " " ++
      PidFormatter.format (extractStr line "pid") ++ " " ++
      InFormatter.format (extractStr line "in") ++ " " ++
      WhatFormatter.format (extractStr line "what"))

/-- main.rs 125-128: the optional free-text note line (with its terminating
newline); empty when the text field is absent, so that the formatter is never
invoked without a value. -/
def textSegment (line : List (String × JValue)) : String :=
  match TextFormatter.format (extractStr line "text") with
  | some t => t ++ "\n"
  | none => ""

/-- main.rs 131-137: the record after removal of all recognized keys. -/
def residualMap (line : List (String × JValue)) : List (String × JValue) :=
  removeAll line recognizedKeys

/-- main.rs 96-141, process_line.  The result is the flat stream of println
bytes; Except.error models a panic and carries the output printed before it
(the when panic happens before the first println, the ser panic after the
primary and note lines). -/
def process_line (ser : JValue → Option String) (parseTs : String → Option String)
    (line : List (String × JValue)) : Except String String :=
  match primarySegments parseTs line with
  | none => .error ""
  | some primary =>
    let head := primary ++ "\n" ++ textSegment line
    let rest := residualMap line
    if rest.isEmpty then .ok head
    else
      match ser (JValue.obj rest) with
      | none => .error head
      | some s => .ok (head ++ s ++ "\n\n")

/-- main.rs 153-175: per-line dispatch.  tty is the startup interactivity flag;
jparse models serde_json::from_str. -/
def dispatchLine (tty : Bool) (jparse : String → Except String JValue)
    (ser : JValue → Option String) (parseTs : String → Option String)
    (l : String) : Except String String :=
  if tty then
    match jparse l with
    | .ok (JValue.obj m) => process_line ser parseTs m
    | .error e => .ok (Colour.Red.paint ("cannot parse log line: " ++ e ++ "\n" ++ l) ++ "\n")
    | .ok _ => .ok ""
  else
    .ok (l ++ "\n")

/-- main.rs 143-179: the whole run over the list of input lines.  Except.error
carries the output emitted before a panic aborted the process. -/
def runMain (tty : Bool) (jparse : String → Except String JValue)
    (ser : JValue → Option String) (parseTs : String → Option String) :
    List String → Except String String
  | [] => .ok ""
  | l :: ls =>
    match dispatchLine tty jparse ser parseTs l with
    | .error pre => .error pre
    | .ok out =>
      match runMain tty jparse ser parseTs ls with
      | .ok rest => .ok (out ++ rest)
      | .error rest => .error (out ++ rest)

/-- the verbatim join of the input lines, one per output line. -/
def passthroughOut : List String → String
  | [] => ""
  | l :: ls => l ++ "\n" ++ passthroughOut ls

/-- the primary line rendered when every recognized field is absent: the five
placeholder segments in order, joined by single spaces. -/
def placeholderPrimary : String :=
  Colour.Blue.paint "XXXX-XX-XX XX:XX:XX" ++ " " ++ Colour.Blue.paint "[XXXXXX ]" ++ " " ++
    Colour.Blue.paint "XXXXXX    " ++ " " ++ Colour.White.paint "| " ++ " " ++
    Colour.White.paint ""

/-- the fixed severity-to-colour mapping stated by the spec. -/
def levelColourSpec (level : String) : Colour :=
  if level = "alert" ∨ level = "critical" ∨ level = "error" then Colour.Red
  else if level = "warning" ∨ level = "notice" then Colour.Yellow
  else if level = "info" then Colour.Blue
  else if level = "debug" then Colour.Purple
  else Colour.Blue

/-- the free-text note line as the spec describes it: present exactly when the
text field extracts to a string. -/
def noteLine (line : List (String × JValue)) : Option String :=
  (extractStr line "text").map (fun t =>
    Colour.Blue.paintBold ">>" ++ " " ++ Colour.Green.paint t)

theorem String.data_eq (a b : String) (h : a.data = b.data) : a = b := by
  cases a; cases b; simp_all

theorem removeAll_eq_filter (line : List (String × JValue)) (ks : List String) :
    removeAll line ks = line.filter (fun kv => !ks.contains kv.1) := by
  induction ks generalizing line with
  | nil =>
    simp [removeAll, List.contains]
  | cons k ks ih =>
    show removeAll (removeKey line k) ks = _
    rw [ih]
    unfold removeKey
    rw [List.filter_filter]
    apply List.filter_congr
    intro kv _
    by_cases h : kv.1 = k
    · simp [h]
    · simp [h, bne_iff_ne, Ne, List.contains_cons]

theorem mapGet_residual_none (line : List (String × JValue)) (k : String)
    (hk : k ∈ recognizedKeys) : mapGet (residualMap line) k = none := by
  rw [residualMap, removeAll_eq_filter]
  unfold mapGet
  rw [Option.map_eq_none']
  apply List.find?_eq_none.mpr
  intro kv hkv hbeq
  rw [List.mem_filter] at hkv
  have h1 : kv.1 = k := by simpa using hbeq
  have h2 : recognizedKeys.contains kv.1 = true := by
    simp [List.contains, List.elem_eq_mem, h1, hk]
  rw [h2] at hkv
  simp at hkv

theorem mem_residualMap (line : List (String × JValue)) (kv : String × JValue)
    (h : kv ∈ line) (h2 : kv.1 ∉ recognizedKeys) : kv ∈ residualMap line := by
  rw [residualMap, removeAll_eq_filter]
  rw [List.mem_filter]
  refine ⟨h, ?_⟩
  simp [List.contains, List.elem_eq_mem, h2]

theorem mapGet_removeKey_self (line : List (String × JValue)) (k : String) :
    mapGet (removeKey line k) k = none := by
  unfold mapGet
  rw [Option.map_eq_none']
  apply List.find?_eq_none.mpr
  intro kv hkv hbeq
  rw [removeKey, List.mem_filter] at hkv
  have h1 : kv.1 = k := by simpa using hbeq
  simp [h1] at hkv

theorem mapGet_removeKey_ne (line : List (String × JValue)) (k k2 : String)
    (h : k2 ≠ k) : mapGet (removeKey line k) k2 = mapGet line k2 := by
  unfold mapGet removeKey
  induction line with
  | nil => rfl
  | cons kv l ih =>
    by_cases hk : kv.1 = k
    · have hne : (kv.1 == k2) = false := by simp [hk]; exact fun hh => h hh.symm
      simp only [List.filter_cons, hk]
      simp only [bne_self_eq_false, cond_false, List.find?]
      rw [hne]
      simpa using ih
    · simp only [List.filter_cons]
      have hbne : (kv.1 != k) = true := by simp [bne_iff_ne, hk]
      rw [hbne]
      simp only [cond_true, List.find?]
      by_cases h2 : kv.1 = k2
      · simp [h2]
      · have hne : (kv.1 == k2) = false := by simp [h2]
        rw [hne]
        simpa using ih

theorem residualMap_removeKey (line : List (String × JValue)) (k : String)
    (h : k ∈ recognizedKeys) : residualMap (removeKey line k) = residualMap line := by
  rw [residualMap, residualMap, removeAll_eq_filter, removeAll_eq_filter]
  unfold removeKey
  rw [List.filter_filter]
  apply List.filter_congr
  intro kv _
  by_cases hc : recognizedKeys.contains kv.1 = true
  · rw [hc]
    simp
  · have hcf : recognizedKeys.contains kv.1 = false := by
      cases hcc : recognizedKeys.contains kv.1
      · rfl
      · exact absurd hcc hc
    have hne : kv.1 ≠ k := by
      intro hh
      apply hc
      simp [List.contains, List.elem_eq_mem, hh, h]
    rw [hcf]
    simp [bne_iff_ne, hne]

theorem extractStr_removeKey_ne (line : List (String × JValue)) (k k2 : String)
    (h : k2 ≠ k) : extractStr (removeKey line k) k2 = extractStr line k2 := by
  unfold extractStr
  rw [mapGet_removeKey_ne line k k2 h]

theorem extractStr_removeKey_self (line : List (String × JValue)) (k : String) :
    extractStr (removeKey line k) k = none := by
  unfold extractStr
  rw [mapGet_removeKey_self]
  rfl

theorem extractStr_of_nonstring (line : List (String × JValue)) (k : String)
    (v : JValue) (hget : mapGet line k = some v) (hstr : JValue.as_str v = none) :
    extractStr line k = none := by
  unfold extractStr
  rw [hget]
  simpa using hstr

theorem process_line_congr (ser : JValue → Option String)
    (parseTs : String → Option String) (l1 l2 : List (String × JValue))
    (hw : extractStr l1 "when" = extractStr l2 "when")
    (hl : extractStr l1 "level" = extractStr l2 "level")
    (hp : extractStr l1 "pid" = extractStr l2 "pid")
    (hi : extractStr l1 "in" = extractStr l2 "in")
    (hwh : extractStr l1 "what" = extractStr l2 "what")
    (ht : extractStr l1 "text" = extractStr l2 "text")
    (hres : residualMap l1 = residualMap l2) :
    process_line ser parseTs l1 = process_line ser parseTs l2 := by
  unfold process_line primarySegments textSegment
  rw [hw, hl, hp, hi, hwh, ht, hres]

theorem process_line_ok_shape (ser : JValue → Option String)
    (parseTs : String → Option String) (line : List (String × JValue)) (out : String)
    (h : process_line ser parseTs line = .ok out) :
    ∃ pr, primarySegments parseTs line = some pr ∧
      ((residualMap line = [] ∧ out = pr ++ "\n" ++ textSegment line) ∨
        (residualMap line ≠ [] ∧ ∃ s, ser (JValue.obj (residualMap line)) = some s ∧
          out = pr ++ "\n" ++ textSegment line ++ s ++ "\n\n")) := by
  unfold process_line at h
  cases hps : primarySegments parseTs line with
  | none =>
    rw [hps] at h
    cases h
  | some pr =>
    rw [hps] at h
    dsimp only at h
    refine ⟨pr, rfl, ?_⟩
    by_cases hre : (residualMap line).isEmpty = true
    · rw [if_pos hre] at h
      cases h
      exact Or.inl ⟨List.isEmpty_iff.mp hre, rfl⟩
    · rw [if_neg hre] at h
      cases hser : ser (JValue.obj (residualMap line)) with
      | none =>
        rw [hser] at h
        cases h
      | some s =>
        rw [hser] at h
        cases h
        exact Or.inr ⟨fun hnil => hre (by simp [hnil]), s, rfl, rfl⟩

theorem lastChar_append (a b : String) (c : Char) (h : b.data.getLast? = some c) :
    (a ++ b).data.getLast? = some c := by
  rw [String.data_append, List.getLast?_append, h]
  rfl

theorem paint_last (c : Colour) (s : String) :
    (Colour.paint c s).data.getLast? = some 'm' := by
  unfold Colour.paint
  apply lastChar_append
  rfl

theorem primarySegments_last (parseTs : String → Option String)
    (line : List (String × JValue)) (pr : String)
    (h : primarySegments parseTs line = some pr) : pr.data.getLast? = some 'm' := by
  unfold primarySegments at h
  rw [Option.map_eq_some'] at h
  obtain ⟨w, _, rfl⟩ := h
  apply lastChar_append
  unfold WhatFormatter.format
  exact paint_last _ _

theorem textSegment_shape (line : List (String × JValue)) :
    textSegment line = "" ∨
      ∃ t : String, textSegment line = t ++ "\n" ∧ t.data.getLast? = some 'm' := by
  unfold textSegment TextFormatter.format
  cases extractStr line "text" with
  | none => exact Or.inl rfl
  | some t =>
    refine Or.inr ⟨_, rfl, ?_⟩
    apply lastChar_append
    exact paint_last _ _

/-- the styled output ends with a trailing blank line. -/
def endsBlank (s : String) : Prop := ∃ t : String, s = t ++ "\n\n"

theorem dropLast_newline (x : String) : (x ++ "\n").data.dropLast = x.data := by
  rw [String.data_append]
  exact List.dropLast_concat

theorem not_endsBlank (s : String) (h : s.data.dropLast.getLast? = some 'm') :
    ¬ endsBlank s := by
  rintro ⟨t, rfl⟩
  rw [String.data_append] at h
  rw [show ("\n\n" : String).data = ['\n', '\n'] from rfl] at h
  rw [show t.data ++ ['\n', '\n'] = (t.data ++ ['\n']) ++ ['\n'] by
    rw [List.append_assoc]; rfl] at h
  rw [List.dropLast_concat, List.getLast?_concat] at h
  cases h

theorem padCenter_length (w : Nat) (s : String) (h : s.length ≤ w) :
    (padCenter w s).length = w := by
  unfold padCenter
  by_cases hw : w ≤ s.length
  · rw [if_pos hw]
    omega
  · rw [if_neg hw]
    rw [String.length_append, String.length_append]
    show (List.replicate ((w - s.length) / 2) ' ').length + s.length +
      (List.replicate (w - s.length - (w - s.length) / 2) ' ').length = w
    rw [List.length_replicate, List.length_replicate]
    omega

/-- the severity values with their own colour in the source's match. -/
def knownLevels : List String :=
  ["alert", "critical", "error", "warning", "notice", "info", "debug"]

/-- a parse-and-reformat stand-in for chrono, accepting one fixed timestamp. -/
def parseTsW : String → Option String := fun s =>
  if s = "2023-01-01T10:00:00Z" then some "2023-01-01 12:00:00" else none

/-- a serializer stand-in for colored_json that renders every value as "RES". -/
def serW : JValue → Option String := fun _ => some "RES"

/-- a serde_json stand-in accepting the two objects of the C2 example. -/
def jparseW : String → Except String JValue := fun l =>
  if l = "\x7b\"a\":1\x7d" then .ok (.obj [("a", .num 1)])
  else if l = "\x7b\"b\":2\x7d" then .ok (.obj [("b", .num 2)])
  else .error "expected value"

/-- C1: in passthrough (non-interactive) mode the dispatcher is the identity on
input lines: each line is echoed unchanged (println adds the line terminator),
the whole run is the verbatim join of the input lines, and the run is
independent of the JSON parser and of every formatter collaborator, so no JSON
parsing is attempted and no parse error can ever be emitted. -/
theorem passthrough_identity :
    (∀ (jparse : String → Except String JValue) (ser : JValue → Option String)
        (parseTs : String → Option String) (l : String),
      dispatchLine false jparse ser parseTs l = .ok (l ++ "\n"))
    ∧ (∀ (jparse : String → Except String JValue) (ser : JValue → Option String)
        (parseTs : String → Option String) (lines : List String),
      runMain false jparse ser parseTs lines = .ok (passthroughOut lines))
    ∧ (∀ (jparse jparse2 : String → Except String JValue)
        (ser ser2 : JValue → Option String)
        (parseTs parseTs2 : String → Option String) (lines : List String),
      runMain false jparse ser parseTs lines = runMain false jparse2 ser2 parseTs2 lines) := by
  have h1 : ∀ (jparse : String → Except String JValue) (ser : JValue → Option String)
      (parseTs : String → Option String) (l : String),
      dispatchLine false jparse ser parseTs l = .ok (l ++ "\n") := by
    intro jparse ser parseTs l
    rfl
  have h2 : ∀ (jparse : String → Except String JValue) (ser : JValue → Option String)
      (parseTs : String → Option String) (lines : List String),
      runMain false jparse ser parseTs lines = .ok (passthroughOut lines) := by
    intro jparse ser parseTs lines
    induction lines with
    | nil => rfl
    | cons l ls ih =>
      show (match dispatchLine false jparse ser parseTs l with
        | Except.error pre => (Except.error pre : Except String String)
        | Except.ok out =>
          match runMain false jparse ser parseTs ls with
          | Except.ok rest => Except.ok (out ++ rest)
          | Except.error rest => Except.error (out ++ rest)) = _
      rw [h1, ih]
      rfl
  exact ⟨h1, h2, fun jparse jparse2 ser ser2 parseTs parseTs2 lines => by
    rw [h2 jparse ser parseTs lines, h2 jparse2 ser2 parseTs2 lines]⟩

/-- C4: the severity formatter centres its input to width 7 inside brackets and
colours it by a fixed total mapping: alert, critical, error are red; warning
and notice are yellow; info and debug get two distinct colours; every other
value, the placeholder XXXXXX included, gets the info (default) colour. -/
theorem level_formatter_colour_map (v : String) :
    LevelFormatter.format (some v) = (levelColourSpec v).paint ("[" ++ padCenter 7 v ++ "]")
    ∧ LevelFormatter.format none =
        (levelColourSpec "XXXXXX").paint ("[" ++ padCenter 7 "XXXXXX" ++ "]")
    ∧ (v.length ≤ 7 → (padCenter 7 v).length = 7)
    ∧ levelColourSpec "alert" = Colour.Red
    ∧ levelColourSpec "critical" = Colour.Red
    ∧ levelColourSpec "error" = Colour.Red
    ∧ levelColourSpec "warning" = Colour.Yellow
    ∧ levelColourSpec "notice" = Colour.Yellow
    ∧ levelColourSpec "info" ≠ levelColourSpec "debug"
    ∧ levelColourSpec "XXXXXX" = levelColourSpec "info"
    ∧ (v ∉ knownLevels → levelColourSpec v = levelColourSpec "info") := by
  refine ⟨rfl, rfl, padCenter_length 7 v, rfl, rfl, rfl, rfl, rfl, by decide, by decide, ?_⟩
  intro h
  simp only [knownLevels, List.mem_cons, List.not_mem_nil, or_false] at h
  push_neg at h
  obtain ⟨h1, h2, h3, h4, h5, h6, h7⟩ := h
  simp [levelColourSpec, h1, h2, h3, h4, h5, h6, h7]

theorem level_formatter_colour_map_witness :
    (("mystery" : String).length ≤ 7 ∧ (padCenter 7 "mystery").length = 7)
    ∧ levelColourSpec "mystery" = levelColourSpec "info" :=
  ⟨⟨by decide, (level_formatter_colour_map "mystery").2.2.1 (by decide)⟩,
    (level_formatter_colour_map "mystery").2.2.2.2.2.2.2.2.2.2 (by decide)⟩

/-- C5: the time-of-event formatter renders the placeholder when no value is
present, renders the reformatted local timestamp (in the fixed blue highlight)
when the chrono parse-and-reformat succeeds, and panics (propagates a fatal
error, modelled as none) when a value is present but unparsable. -/
theorem when_formatter_behaviour (parseTs : String → Option String) :
    WhenFormatter.format parseTs none = some (Colour.Blue.paint "XXXX-XX-XX XX:XX:XX")
    ∧ (∀ s t, parseTs s = some t →
        WhenFormatter.format parseTs (some s) = some (Colour.Blue.paint t))
    ∧ (∀ s, parseTs s = none → WhenFormatter.format parseTs (some s) = none) := by
  refine ⟨rfl, ?_, ?_⟩
  · intro s t h
    show (match parseTs s with
      | some u => some (Colour.Blue.paint u)
      | none => none) = some (Colour.Blue.paint t)
    rw [h]
  · intro s h
    show (match parseTs s with
      | some u => some (Colour.Blue.paint u)
      | none => none) = none
    rw [h]

theorem when_formatter_behaviour_witness :
    WhenFormatter.format parseTsW (some "2023-01-01T10:00:00Z") =
      some (Colour.Blue.paint "2023-01-01 12:00:00")
    ∧ WhenFormatter.format parseTsW (some "garbage") = none :=
  ⟨(when_formatter_behaviour parseTsW).2.1 _ _ (by decide),
    (when_formatter_behaviour parseTsW).2.2 _ (by decide)⟩

theorem process_line_eq_of (ser : JValue → Option String)
    (parseTs : String → Option String) (line : List (String × JValue))
    (pr s : String) (hps : primarySegments parseTs line = some pr)
    (hne : residualMap line ≠ [])
    (hser : ser (JValue.obj (residualMap line)) = some s) :
    process_line ser parseTs line = .ok (pr ++ "\n" ++ textSegment line ++ s ++ "\n\n") := by
  unfold process_line
  rw [hps]
  dsimp only
  rw [if_neg (fun hc => hne (List.isEmpty_iff.mp hc)), hser]

theorem process_line_eq_of_empty (ser : JValue → Option String)
    (parseTs : String → Option String) (line : List (String × JValue))
    (pr : String) (hps : primarySegments parseTs line = some pr)
    (hre : residualMap line = []) :
    process_line ser parseTs line = .ok (pr ++ "\n" ++ textSegment line) := by
  unfold process_line
  rw [hps]
  dsimp only
  rw [if_pos (by rw [hre]; rfl)]

/-- C2: in interactive mode each input line has exactly one of three outcomes:
a line parsing as a JSON object is routed to the record renderer; a line that
fails to parse yields the error-highlighted two-line message (parse error
summary, then the offending raw text) and the stream continues; a line parsing
as JSON whose top level is not an object produces no output.  On the lines
containing the objects a:1 and b:2 with the unparsable line between them, the
run renders record 1, then the error block naming the bad line, then record 3,
in that order. -/
theorem interactive_dispatch_outcomes
    (jparse : String → Except String JValue) (ser : JValue → Option String)
    (parseTs : String → Option String) :
    (∀ l m, jparse l = .ok (.obj m) →
      dispatchLine true jparse ser parseTs l = process_line ser parseTs m)
    ∧ (∀ l e, jparse l = .error e →
      dispatchLine true jparse ser parseTs l =
        .ok (Colour.Red.paint ("cannot parse log line: " ++ e ++ "\n" ++ l) ++ "\n"))
    ∧ (∀ l v, jparse l = .ok v → (∀ m, v ≠ JValue.obj m) →
      dispatchLine true jparse ser parseTs l = .ok "")
    ∧ (∀ e s1 s3,
      jparse "\x7b\"a\":1\x7d" = .ok (.obj [("a", .num 1)]) →
      jparse "not json" = .error e →
      jparse "\x7b\"b\":2\x7d" = .ok (.obj [("b", .num 2)]) →
      ser (.obj [("a", .num 1)]) = some s1 →
      ser (.obj [("b", .num 2)]) = some s3 →
      runMain true jparse ser parseTs ["\x7b\"a\":1\x7d", "not json", "\x7b\"b\":2\x7d"] =
        .ok ((placeholderPrimary ++ "\n" ++ s1 ++ "\n\n") ++
          ((Colour.Red.paint ("cannot parse log line: " ++ e ++ "\n" ++ "not json") ++ "\n") ++
            ((placeholderPrimary ++ "\n" ++ s3 ++ "\n\n") ++ "")))) := by
  have hobj : ∀ l m, jparse l = .ok (.obj m) →
      dispatchLine true jparse ser parseTs l = process_line ser parseTs m := by
    intro l m h
    simp [dispatchLine, h]
  have herr : ∀ l e, jparse l = .error e →
      dispatchLine true jparse ser parseTs l =
        .ok (Colour.Red.paint ("cannot parse log line: " ++ e ++ "\n" ++ l) ++ "\n") := by
    intro l e h
    simp [dispatchLine, h]
  have hdrop : ∀ l v, jparse l = .ok v → (∀ m, v ≠ JValue.obj m) →
      dispatchLine true jparse ser parseTs l = .ok "" := by
    intro l v h hno
    cases v with
    | obj m => exact absurd rfl (hno m)
    | null => simp [dispatchLine, h]
    | bool b => simp [dispatchLine, h]
    | num n => simp [dispatchLine, h]
    | str s => simp [dispatchLine, h]
    | arr xs => simp [dispatchLine, h]
  refine ⟨hobj, herr, hdrop, ?_⟩
  intro e s1 s3 hA hB hC hs1 hs3
  have pA : process_line ser parseTs [("a", JValue.num 1)] =
      .ok (placeholderPrimary ++ "\n" ++ s1 ++ "\n\n") := by
    have h0 := process_line_eq_of ser parseTs [("a", JValue.num 1)] placeholderPrimary s1
      rfl (by rw [show residualMap [("a", JValue.num 1)] = [("a", JValue.num 1)] from rfl]
              exact List.cons_ne_nil _ _)
      (by rw [show residualMap [("a", JValue.num 1)] = [("a", JValue.num 1)] from rfl]
          exact hs1)
    rw [h0, show textSegment [("a", JValue.num 1)] = "" from rfl, String.append_empty]
  have pC : process_line ser parseTs [("b", JValue.num 2)] =
      .ok (placeholderPrimary ++ "\n" ++ s3 ++ "\n\n") := by
    have h0 := process_line_eq_of ser parseTs [("b", JValue.num 2)] placeholderPrimary s3
      rfl (by rw [show residualMap [("b", JValue.num 2)] = [("b", JValue.num 2)] from rfl]
              exact List.cons_ne_nil _ _)
      (by rw [show residualMap [("b", JValue.num 2)] = [("b", JValue.num 2)] from rfl]
          exact hs3)
    rw [h0, show textSegment [("b", JValue.num 2)] = "" from rfl, String.append_empty]
  have dA := hobj _ _ hA
  have dB := herr _ _ hB
  have dC := hobj _ _ hC
  simp only [runMain]
  rw [dA, pA, dB, dC, pC]

theorem interactive_dispatch_outcomes_witness :
    runMain true jparseW serW parseTsW ["\x7b\"a\":1\x7d", "not json", "\x7b\"b\":2\x7d"] =
      .ok ((placeholderPrimary ++ "\n" ++ "RES" ++ "\n\n") ++
        ((Colour.Red.paint ("cannot parse log line: " ++ "expected value" ++ "\n" ++ "not json") ++ "\n") ++
          ((placeholderPrimary ++ "\n" ++ "RES" ++ "\n\n") ++ ""))) :=
  (interactive_dispatch_outcomes jparseW serW parseTsW).2.2.2 "expected value" "RES" "RES"
    rfl rfl rfl rfl rfl

/-- C3: the renderer removes every recognized key (the five rendered fields
plus the suppressed identifiers at, log, id and the note text) from the record
whether or not it was present; keys outside the recognized set survive into the
residual mapping; if keys remain the output appends the serialized highlighted
residual object followed by a blank line, and if none remain no residual block
is emitted at all. -/
theorem residual_rendering (ser : JValue → Option String)
    (parseTs : String → Option String) (line : List (String × JValue)) (out : String)
    (h : process_line ser parseTs line = .ok out) :
    (∀ k, k ∈ recognizedKeys → mapGet (residualMap line) k = none)
    ∧ (∀ kv, kv ∈ line → kv.1 ∉ recognizedKeys → kv ∈ residualMap line)
    ∧ (residualMap line = [] →
        ∃ pr, primarySegments parseTs line = some pr ∧ out = pr ++ "\n" ++ textSegment line)
    ∧ (residualMap line ≠ [] →
        ∃ pr s, primarySegments parseTs line = some pr ∧
          ser (JValue.obj (residualMap line)) = some s ∧
          out = pr ++ "\n" ++ textSegment line ++ s ++ "\n\n") := by
  obtain ⟨pr, hps, hcases⟩ := process_line_ok_shape ser parseTs line out h
  refine ⟨fun k hk => mapGet_residual_none line k hk,
    fun kv hkv hnk => mem_residualMap line kv hkv hnk, ?_, ?_⟩
  · intro hre
    rcases hcases with ⟨_, hout⟩ | ⟨hne, _⟩
    · exact ⟨pr, hps, hout⟩
    · exact absurd hre hne
  · intro hne
    rcases hcases with ⟨hre, _⟩ | ⟨_, s, hser, hout⟩
    · exact absurd hre hne
    · exact ⟨pr, s, hps, hser, hout⟩

theorem residual_rendering_witness :
    mapGet (residualMap [("foo", JValue.str "bar")]) "text" = none
    ∧ ("foo", JValue.str "bar") ∈ residualMap [("foo", JValue.str "bar")] := by
  have h := residual_rendering serW parseTsW [("foo", JValue.str "bar")]
    (placeholderPrimary ++ "\n" ++ "RES" ++ "\n\n") rfl
  exact ⟨h.1 "text" (by decide),
    h.2.1 ("foo", JValue.str "bar") (List.mem_cons_self _ _) (by decide)⟩

/-- C6: when every one of the five recognized primary fields is absent, the
primary summary line is exactly the five placeholder segments in fixed order
joined by single spaces, independent of the residual keys of the record; and
for every rendered record the primary line is emitted first, unconditionally. -/
theorem placeholder_primary_line (ser : JValue → Option String)
    (parseTs : String → Option String) (line : List (String × JValue))
    (hw : mapGet line "when" = none) (hl : mapGet line "level" = none)
    (hp : mapGet line "pid" = none) (hi : mapGet line "in" = none)
    (hwh : mapGet line "what" = none) :
    primarySegments parseTs line = some placeholderPrimary
    ∧ (∀ line2 out, process_line ser parseTs line2 = .ok out →
        ∃ pr t, primarySegments parseTs line2 = some pr ∧ out = pr ++ "\n" ++ t) := by
  constructor
  · unfold primarySegments extractStr
    rw [hw, hl, hp, hi, hwh]
    rfl
  · intro line2 out h
    obtain ⟨pr, hps, hcases⟩ := process_line_ok_shape ser parseTs line2 out h
    rcases hcases with ⟨_, hout⟩ | ⟨_, s, _, hout⟩
    · exact ⟨pr, textSegment line2, hps, hout⟩
    · refine ⟨pr, textSegment line2 ++ s ++ "\n\n", hps, ?_⟩
      rw [hout]
      simp [String.append_assoc]

theorem placeholder_primary_line_witness :
    primarySegments parseTsW [("foo", JValue.str "bar")] = some placeholderPrimary :=
  (placeholder_primary_line serW parseTsW [("foo", JValue.str "bar")]
    rfl rfl rfl rfl rfl).1

theorem textSegment_eq_noteLine (line : List (String × JValue)) :
    textSegment line =
      (match noteLine line with | some nl => nl ++ "\n" | none => "") := by
  unfold textSegment noteLine TextFormatter.format
  cases extractStr line "text" <;> rfl

/-- C7: the free-text note is rendered exactly when the text field extracts to
a present string: the formatter itself fails (none) on a missing value, so the
caller guards on presence; when present the note is the bold arrow marker and
the coloured body, emitted as the line immediately after the primary line. -/
theorem note_line_iff_present (ser : JValue → Option String)
    (parseTs : String → Option String) (line : List (String × JValue)) (out : String)
    (h : process_line ser parseTs line = .ok out) :
    TextFormatter.format none = none
    ∧ (∀ t, extractStr line "text" = some t →
        TextFormatter.format (extractStr line "text") =
          some (Colour.Blue.paintBold ">>" ++ " " ++ Colour.Green.paint t))
    ∧ ((noteLine line).isSome ↔ (extractStr line "text").isSome)
    ∧ (∃ pr r, primarySegments parseTs line = some pr ∧
        out = pr ++ "\n" ++
          (match noteLine line with | some nl => nl ++ "\n" | none => "") ++ r) := by
  refine ⟨rfl, ?_, ?_, ?_⟩
  · intro t ht
    rw [ht]
    rfl
  · unfold noteLine
    cases hx : extractStr line "text" <;> simp
  · obtain ⟨pr, hps, hcases⟩ := process_line_ok_shape ser parseTs line out h
    rcases hcases with ⟨_, hout⟩ | ⟨_, s, _, hout⟩
    · refine ⟨pr, "", hps, ?_⟩
      rw [hout, textSegment_eq_noteLine, String.append_empty]
    · refine ⟨pr, s ++ "\n\n", hps, ?_⟩
      rw [hout, textSegment_eq_noteLine]
      simp [String.append_assoc]

theorem note_line_iff_present_witness :
    TextFormatter.format none = none
    ∧ TextFormatter.format (extractStr [("text", JValue.str "hi")] "text") =
        some (Colour.Blue.paintBold ">>" ++ " " ++ Colour.Green.paint "hi") := by
  have h := note_line_iff_present serW parseTsW [("text", JValue.str "hi")]
    (placeholderPrimary ++ "\n" ++
      (Colour.Blue.paintBold ">>" ++ " " ++ Colour.Green.paint "hi") ++ "\n") rfl
  exact ⟨h.1, h.2.1 "hi" rfl⟩

theorem head_dropLast_last (parseTs : String → Option String)
    (line : List (String × JValue)) (pr : String)
    (hps : primarySegments parseTs line = some pr) :
    (pr ++ "\n" ++ textSegment line).data.dropLast.getLast? = some 'm' := by
  have hpr := primarySegments_last parseTs line pr hps
  rcases textSegment_shape line with hts | ⟨t, hts, htm⟩
  · rw [hts, String.append_empty]
    rw [show (pr ++ "\n").data = pr.data ++ ['\n'] from by rw [String.data_append]]
    rw [List.dropLast_concat]
    exact hpr
  · rw [hts]
    have hnl : ("\n" : String).data = ['\n'] := rfl
    have hsplit : ((pr ++ "\n") ++ (t ++ "\n")).data = ((pr ++ "\n") ++ t).data ++ ['\n'] := by
      simp [String.data_append, List.append_assoc, hnl]
    rw [hsplit, List.dropLast_concat]
    exact lastChar_append _ _ _ htm

/-- C8 (amended): the styled output of a rendered record ends with a trailing
blank line exactly when residual fields were rendered; a free-text note alone
adds no trailing blank line. -/
theorem trailing_blank_iff_residual (ser : JValue → Option String)
    (parseTs : String → Option String) (line : List (String × JValue)) (out : String)
    (h : process_line ser parseTs line = .ok out) :
    endsBlank out ↔ residualMap line ≠ [] := by
  obtain ⟨pr, hps, hcases⟩ := process_line_ok_shape ser parseTs line out h
  rcases hcases with ⟨hre, hout⟩ | ⟨hne, s, hser, hout⟩
  · constructor
    · intro hb
      exfalso
      subst hout
      exact not_endsBlank _ (head_dropLast_last parseTs line pr hps) hb
    · intro hne
      exact absurd hre hne
  · constructor
    · intro _
      exact hne
    · intro _
      exact ⟨pr ++ "\n" ++ textSegment line ++ s, hout⟩

theorem trailing_blank_iff_residual_witness :
    endsBlank (placeholderPrimary ++ "\n" ++ "RES" ++ "\n\n") := by
  have h := trailing_blank_iff_residual serW parseTsW [("foo", JValue.str "bar")]
    (placeholderPrimary ++ "\n" ++ "RES" ++ "\n\n") rfl
  apply h.mpr
  rw [show residualMap [("foo", JValue.str "bar")] = [("foo", JValue.str "bar")] from rfl]
  exact List.cons_ne_nil _ _

/-- C8 counterexample: a record whose only content is a free-text note is
rendered with a note line but with no trailing blank line, refuting the claim
that a rendered note forces a trailing blank line. -/
theorem trailing_blank_note_counterexample :
    process_line serW parseTsW [("text", JValue.str "hi")] =
      .ok (placeholderPrimary ++ "\n" ++
        (Colour.Blue.paintBold ">>" ++ " " ++ Colour.Green.paint "hi") ++ "\n")
    ∧ (noteLine [("text", JValue.str "hi")]).isSome = true
    ∧ residualMap [("text", JValue.str "hi")] = []
    ∧ ¬ endsBlank (placeholderPrimary ++ "\n" ++
        (Colour.Blue.paintBold ">>" ++ " " ++ Colour.Green.paint "hi") ++ "\n") := by
  refine ⟨rfl, rfl, rfl, ?_⟩
  apply not_endsBlank
  exact head_dropLast_last parseTsW [("text", JValue.str "hi")] placeholderPrimary rfl

/-- C9: a recognized field present with a non-string value is treated exactly
as if it were absent: the extraction hands the formatter no value, rendering
the record equals rendering the record with that key removed, no error is
raised (a non-string time-of-event in particular keeps the when formatter on
its placeholder path), and the key is removed before residual rendering. -/
theorem nonstring_field_as_absent (ser : JValue → Option String)
    (parseTs : String → Option String) (line : List (String × JValue))
    (k : String) (v : JValue)
    (hk : k ∈ (["when", "level", "pid", "in", "what", "text"] : List String))
    (hget : mapGet line k = some v) (hstr : JValue.as_str v = none) :
    process_line ser parseTs line = process_line ser parseTs (removeKey line k)
    ∧ extractStr line k = none
    ∧ mapGet (residualMap line) k = none
    ∧ (k = "when" → (WhenFormatter.format parseTs (extractStr line "when")).isSome = true) := by
  have hex : extractStr line k = none := extractStr_of_nonstring line k v hget hstr
  have hkrec : k ∈ recognizedKeys := by
    simp only [List.mem_cons, List.not_mem_nil, or_false] at hk
    rcases hk with rfl | rfl | rfl | rfl | rfl | rfl <;> decide
  have hall : ∀ k2 : String, extractStr line k2 = extractStr (removeKey line k) k2 := by
    intro k2
    by_cases h2 : k2 = k
    · subst h2
      rw [hex, extractStr_removeKey_self]
    · exact (extractStr_removeKey_ne line k k2 h2).symm
  refine ⟨process_line_congr ser parseTs line (removeKey line k)
      (hall "when") (hall "level") (hall "pid") (hall "in") (hall "what") (hall "text")
      (residualMap_removeKey line k hkrec).symm,
    hex, mapGet_residual_none line k hkrec, ?_⟩
  intro hkw
  subst hkw
  rw [hex]
  rfl

theorem nonstring_field_as_absent_witness :
    process_line serW parseTsW [("when", JValue.num 3)] =
      process_line serW parseTsW (removeKey [("when", JValue.num 3)] "when")
    ∧ extractStr [("when", JValue.num 3)] "when" = none
    ∧ (WhenFormatter.format parseTsW (extractStr [("when", JValue.num 3)] "when")).isSome = true := by
  have h := nonstring_field_as_absent serW parseTsW [("when", JValue.num 3)] "when"
    (JValue.num 3) (by decide) rfl rfl
  exact ⟨h.1, h.2.1, h.2.2.2 rfl⟩

/-- a serde_json stand-in for the C10 witness: one object with an unparsable
timestamp, everything else a parse error. -/
def jparseBadW : String → Except String JValue := fun l =>
  if l = "bad" then .ok (.obj [("when", JValue.str "garbage")]) else .error "expected value"

/-- C10: when a present string time-of-event value fails to parse, the panic
happens before any output for that record: the record contributes nothing to
the output (no primary line, no note, no residual block), no later input line
is processed, and the whole run aborts with only the output of the earlier
lines. -/
theorem when_parse_failure_aborts (jparse : String → Except String JValue)
    (ser : JValue → Option String) (parseTs : String → Option String)
    (pre post : List String) (bad : String) (m : List (String × JValue))
    (s accOut : String)
    (hbad : jparse bad = .ok (.obj m))
    (hwhen : mapGet m "when" = some (JValue.str s))
    (hts : parseTs s = none)
    (hpre : runMain true jparse ser parseTs pre = .ok accOut) :
    process_line ser parseTs m = .error ""
    ∧ runMain true jparse ser parseTs (pre ++ bad :: post) = .error accOut := by
  have hplm : process_line ser parseTs m = .error "" := by
    have hex : extractStr m "when" = some s := by
      unfold extractStr
      rw [hwhen]
      rfl
    have hwf : WhenFormatter.format parseTs (some s) = none := by
      show (match parseTs s with
        | some u => some (Colour.Blue.paint u)
        | none => none) = none
      rw [hts]
    have hps : primarySegments parseTs m = none := by
      unfold primarySegments
      rw [hex, hwf]
      rfl
    unfold process_line
    rw [hps]
  refine ⟨hplm, ?_⟩
  induction pre generalizing accOut with
  | nil =>
    have hacc : accOut = "" := by
      simp only [runMain] at hpre
      injection hpre with h
      exact h.symm
    subst hacc
    show runMain true jparse ser parseTs (bad :: post) = .error ""
    simp only [runMain]
    rw [show dispatchLine true jparse ser parseTs bad = process_line ser parseTs m from by
      simp [dispatchLine, hbad]]
    rw [hplm]
  | cons l ls ih =>
    rw [List.cons_append]
    simp only [runMain] at hpre ⊢
    cases hd : dispatchLine true jparse ser parseTs l with
    | error p =>
      rw [hd] at hpre
      cases hpre
    | ok o =>
      rw [hd] at hpre
      cases hr : runMain true jparse ser parseTs ls with
      | error r =>
        rw [hr] at hpre
        cases hpre
      | ok r =>
        rw [hr] at hpre
        injection hpre with h
        subst h
        rw [ih r hr]

theorem when_parse_failure_aborts_witness :
    process_line serW parseTsW [("when", JValue.str "garbage")] = .error ""
    ∧ runMain true jparseBadW serW parseTsW (["nope"] ++ "bad" :: ["after"]) =
      .error (Colour.Red.paint
        ("cannot parse log line: " ++ "expected value" ++ "\n" ++ "nope") ++ "\n") := by
  have h := when_parse_failure_aborts jparseBadW serW parseTsW ["nope"] ["after"] "bad"
    [("when", JValue.str "garbage")] "garbage"
    (Colour.Red.paint ("cannot parse log line: " ++ "expected value" ++ "\n" ++ "nope") ++ "\n")
    rfl rfl rfl rfl
  exact ⟨h.1, h.2⟩
